import Mathlib

/-!
Verification of the real-time market-data client of the
PredictionMarketsAgent repository (`src/polymarket/client.py`),
against its natural-language specification.

The development shallow-embeds the relevant parts of the Python module:

* `fetch_all_markets` / `_fetch_page` — cursor pagination with the
  error-signaled end-of-pagination special case;
* the `on_message` handler of `stream_order_books` — the event
  normalizer turning raw push-feed JSON payloads into order-book
  snapshot events and price-change events;
* the `run_websocket` reconnect loop together with the
  `_streaming_active` flag that `on_close` clears on every transport
  close;
* the synchronous guard checks at the top of `stream_order_books`.

Parsed JSON payloads are modelled by the inductive `JVal`; Python
`float`/`int` string conversion is modelled over `ℚ`/`ℤ` by
`parseFloatStr` / `parseIntStr` (covering optional sign, digits,
fraction and exponent — the forms exercised by this wire protocol;
whitespace, underscores, "inf"/"nan" are not modelled).  Exceptions
raised while a message is processed are caught by the handler's
outermost `except` clause in the source; the embedding therefore
returns the list of events that were delivered to the callback before
any such abort.
-/

/-- A parsed JSON value (the result of `json.loads` in the source).
`null` also stands for Python `None`, which is what `dict.get` returns
for a missing key. -/
inductive JVal where
  | null
  | bool (b : Bool)
  | num (q : ℚ)
  | str (s : String)
  | arr (xs : List JVal)
  | obj (fields : List (String × JVal))

/-- First value bound to key `k`, mirroring Python `dict.__getitem__`
semantics over our association-list representation (real dicts have
unique keys). -/
def jget (fields : List (String × JVal)) (k : String) : Option JVal :=
  match fields with
  | [] => none
  | (k', v) :: rest => if k' = k then some v else jget rest k

/-- Python `data.get(k, d)`. -/
def jgetD (fields : List (String × JVal)) (k : String) (d : JVal) : JVal :=
  (jget fields k).getD d

/-- Python `k in data` (key-presence test). -/
def jhas (fields : List (String × JVal)) (k : String) : Bool :=
  (jget fields k).isSome

/-- Python truthiness of a JSON value (`if x:`). -/
def truthy : JVal → Bool
  | .null => false
  | .bool b => b
  | .num q => q != 0
  | .str s => s != ""
  | .arr xs => !xs.isEmpty
  | .obj fs => !fs.isEmpty

/-- Python `v == lit` for a string literal `lit`: true exactly when `v`
is that string (strings never compare equal to numbers/booleans). -/
def isStrVal (v : JVal) (lit : String) : Bool :=
  match v with
  | .str t => t = lit
  | _ => false

/-- Numeric value of the digit list `ds` in base 10. -/
def natOfDigits (ds : List Char) : Nat :=
  ds.foldl (fun a c => a * 10 + (c.toNat - 48)) 0

/-- Python `int(s)` on a string: optional sign followed by one or more
digits; anything else raises (`none`). -/
def parseIntStr (s : String) : Option Int :=
  match s.data with
  | '+' :: ds =>
      if !ds.isEmpty && ds.all Char.isDigit then some (natOfDigits ds) else none
  | '-' :: ds =>
      if !ds.isEmpty && ds.all Char.isDigit then some (-(natOfDigits ds : Int))
      else none
  | ds =>
      if !ds.isEmpty && ds.all Char.isDigit then some (natOfDigits ds) else none

/-- Exponent application for float parsing: `m * 10^e` with an optional
sign on the digit string `ds`. -/
def applyExp (m : ℚ) (neg : Bool) (ds : List Char) : Option ℚ :=
  if !ds.isEmpty && ds.all Char.isDigit then
    some (if neg then m / 10 ^ natOfDigits ds else m * 10 ^ natOfDigits ds)
  else none

/-- Optional `e`/`E` exponent suffix of a float literal. -/
def parseExpPart (cs : List Char) (m : ℚ) : Option ℚ :=
  match cs with
  | [] => some m
  | 'e' :: '+' :: ds => applyExp m false ds
  | 'e' :: '-' :: ds => applyExp m true ds
  | 'e' :: ds => applyExp m false ds
  | 'E' :: '+' :: ds => applyExp m false ds
  | 'E' :: '-' :: ds => applyExp m true ds
  | 'E' :: ds => applyExp m false ds
  | _ => none

/-- Unsigned part of a Python float literal: digits, optional fraction,
optional exponent; at least one mantissa digit required. -/
def parseFloatCore (cs : List Char) : Option ℚ :=
  let ip := cs.takeWhile Char.isDigit
  let r1 := cs.dropWhile Char.isDigit
  match r1 with
  | [] => if ip.isEmpty then none else some ((natOfDigits ip : ℚ))
  | '.' :: r2 =>
      let fp := r2.takeWhile Char.isDigit
      let r3 := r2.dropWhile Char.isDigit
      if ip.isEmpty && fp.isEmpty then none
      else
        parseExpPart r3
          ((natOfDigits ip : ℚ) + (natOfDigits fp : ℚ) / (10 ^ fp.length : ℚ))
  | _ => if ip.isEmpty then none else parseExpPart r1 ((natOfDigits ip : ℚ))

/-- Python `float(s)` on a string (modelled subset: optional sign,
digits/fraction/exponent). -/
def parseFloatStr (s : String) : Option ℚ :=
  match s.data with
  | '+' :: cs => parseFloatCore cs
  | '-' :: cs => (parseFloatCore cs).map Neg.neg
  | cs => parseFloatCore cs

/-- Python `float(v)` on a decoded JSON value: numbers pass through,
booleans become 0/1, strings are parsed, everything else raises. -/
def pyFloat (v : JVal) : Option ℚ :=
  match v with
  | .num q => some q
  | .bool b => some (if b then 1 else 0)
  | .str s => parseFloatStr s
  | _ => none

/-- Truncation toward zero, as Python `int(float)`.  The denominator of
a `ℚ` is positive, so T-division of numerator by denominator is
exactly truncation. -/
def ratTrunc (q : ℚ) : Int :=
  Int.tdiv q.num q.den

/-- Python `int(v)` on a decoded JSON value. -/
def pyInt (v : JVal) : Option Int :=
  match v with
  | .num q => some (ratTrunc q)
  | .str s => parseIntStr s
  | .bool b => some (if b then 1 else 0)
  | _ => none

/-- Python iteration over a decoded JSON value: lists yield elements,
strings yield one-character strings, dicts yield their keys; other
values raise `TypeError` (`none`). -/
def pyIter : JVal → Option (List JVal)
  | .arr xs => some xs
  | .str s => some (s.data.map (fun c => JVal.str c.toString))
  | .obj fs => some (fs.map (fun p => JVal.str p.1))
  | _ => none

/-- One entry of the normalized `bids`/`asks` lists produced by the
`book` branch: a dict level is converted to a `(price, size)` pair of
parsed decimals (`client.py` line 447-448); any non-dict entry is kept
untouched (`else b`). -/
inductive LevelEntry where
  | pair (price size : ℚ)
  | raw (v : JVal)

/-- The canonical event handed to the caller-supplied callback, i.e.
the `order_book_data` dict built by the `on_message` handler of
`stream_order_books`.  The `book` variant carries the parsed level
lists; the `priceChange` variant carries the raw scalar fields exactly
as the source copies them out of the entry (absent keys become null). -/
inductive MarketEvent where
  | book (token_id : String) (market : JVal) (timestamp : ℚ)
      (bids asks : List LevelEntry) (bookHash : JVal)
  | priceChange (token_id : String) (timestamp : ℚ)
      (best_bid best_ask price size side market : JVal)

/-- The instrument identifier an event is delivered for. -/
def tokenIdOf : MarketEvent → String
  | .book t _ _ _ _ _ => t
  | .priceChange t _ _ _ _ _ _ _ => t

/-- Conversion of one raw level (`client.py` lines 447-448):
`(float(b.get("price", 0)), float(b.get("size", 0)))` when `b` is a
dict — `none` when `float` raises — and the raw value otherwise. -/
def levelEntry (b : JVal) : Option LevelEntry :=
  match b with
  | .obj bf =>
      match pyFloat (jgetD bf "price" (JVal.num 0)) with
      | none => none
      | some p =>
          match pyFloat (jgetD bf "size" (JVal.num 0)) with
          | none => none
          | some s => some (.pair p s)
  | v => some (.raw v)

/-- The list comprehension over the raw levels: left to right, the
whole comprehension fails as soon as one conversion raises. -/
def levelsList : List JVal → Option (List LevelEntry)
  | [] => some []
  | b :: rest =>
      match levelEntry b with
      | none => none
      | some e =>
          match levelsList rest with
          | none => none
          | some es => some (e :: es)

/-- `[... for b in buys]`: iterate the value, converting each entry. -/
def levels (v : JVal) : Option (List LevelEntry) :=
  match pyIter v with
  | none => none
  | some items => levelsList items

/-- Timestamp handling of the `book` branch (`client.py` lines
432-439): a string is parsed with `int` and divided by 1000; any other
truthy value goes through `int(...)/1000`; a falsy value falls back to
`datetime.now()` (the `now` parameter).  `none` models the `int`
conversion raising, which aborts the handler. -/
def bookTimestamp (now : ℚ) (v : JVal) : Option ℚ :=
  match v with
  | .str s => (parseIntStr s).map (fun n => (n : ℚ) / 1000)
  | _ =>
      if truthy v then (pyInt v).map (fun n => (n : ℚ) / 1000) else some now

/-- The `event_type = data.get("eventType") or data.get("event_type", "")`
expression (`client.py` line 427). -/
def etvOf (fields : List (String × JVal)) : JVal :=
  let a := jgetD fields "eventType" JVal.null
  if truthy a then a else jgetD fields "event_type" (JVal.str "")

/-- The `book` branch (`client.py` lines 429-460): subscribed-asset
check, timestamp conversion, level conversion, event construction.
All conversion steps precede the callback, so a raise anywhere yields
no event (`none`). -/
def bookEvent (token_ids : List String) (now : ℚ)
    (fields : List (String × JVal)) : Option MarketEvent :=
  match jgetD fields "asset_id" (JVal.str "") with
  | .str s =>
      if s ∈ token_ids then
        match bookTimestamp now (jgetD fields "timestamp" JVal.null) with
        | none => none
        | some ts =>
            match levels (jgetD fields "buys" (JVal.arr [])) with
            | none => none
            | some bids =>
                match levels (jgetD fields "sells" (JVal.arr [])) with
                | none => none
                | some asks =>
                    some (.book s (jgetD fields "market" (JVal.str "")) ts
                      bids asks (jgetD fields "hash" (JVal.str "")))
      else none
  | _ => none

/-- `int(data.get("timestamp", time.time() * 1000))` of the
price-change branch (`client.py` line 464): an absent key uses the
current wall clock (always convertible), a present value goes through
`int` and may raise. -/
def pcTimestampMs (now : ℚ) (tv : Option JVal) : Option Int :=
  match tv with
  | none => some (ratTrunc (now * 1000))
  | some v => pyInt v

/-- The event built for one subscribed price-change entry
(`client.py` lines 472-484): scalar fields are copied out untouched,
absent keys becoming null. -/
def pcEntryEvent (s : String) (ts : ℚ) (mkt : JVal)
    (ef : List (String × JVal)) : MarketEvent :=
  .priceChange s ts (jgetD ef "best_bid" JVal.null)
    (jgetD ef "best_ask" JVal.null) (jgetD ef "price" JVal.null)
    (jgetD ef "size" JVal.null) (jgetD ef "side" JVal.null) mkt

/-- What one price-change entry contributes: an event exactly when the
entry is a dict whose `asset_id` is a subscribed token id.  Used to
state the exact-expansion property of the price-change branch. -/
def pcEntryFilter (token_ids : List String) (ts : ℚ) (mkt : JVal)
    (e : JVal) : Option MarketEvent :=
  match e with
  | .obj ef =>
      match jgetD ef "asset_id" (JVal.str "") with
      | .str s =>
          if s ∈ token_ids then some (pcEntryEvent s ts mkt ef) else none
      | _ => none
  | _ => none

/-- The `for price_change in price_changes` loop (`client.py` lines
468-485).  Each dict entry whose `asset_id` is subscribed fires the
callback; other dict entries are skipped.  A non-dict entry makes
`.get` raise `AttributeError`, aborting the loop — events already
delivered stay delivered, the remaining entries are dropped. -/
def pcLoop (token_ids : List String) (ts : ℚ) (mkt : JVal) :
    List JVal → List MarketEvent
  | [] => []
  | JVal.obj ef :: rest =>
      (match jgetD ef "asset_id" (JVal.str "") with
       | JVal.str s =>
           if s ∈ token_ids then
             pcEntryEvent s ts mkt ef :: pcLoop token_ids ts mkt rest
           else pcLoop token_ids ts mkt rest
       | _ => pcLoop token_ids ts mkt rest)
  | _ :: _ => []

/-- The price-change branch (`client.py` lines 462-485): timestamp
conversion (a raise yields no events), then the per-entry loop. -/
def pcEvents (token_ids : List String) (now : ℚ)
    (fields : List (String × JVal)) : List MarketEvent :=
  match pcTimestampMs now (jget fields "timestamp") with
  | none => []
  | some n =>
      match pyIter (jgetD fields "price_changes" (JVal.arr [])) with
      | none => []
      | some entries =>
          pcLoop token_ids ((n : ℚ) / 1000) (jgetD fields "market" JVal.null)
            entries

/-- The `on_message` handler of `stream_order_books` (`client.py`
lines 413-498), from the decoded JSON value on: the `book` branch, the
`price_change` branch (which tests only the snake-case
`data.get("event_type")`), and the remaining branches (subscription
confirmations, error notices, unhandled shapes) which only log.  The
result is the list of events delivered to the callback, in order; the
handler's outermost `except` clause means a raise mid-processing
truncates delivery but never propagates. -/
def on_message (token_ids : List String) (now : ℚ) (data : JVal) :
    List MarketEvent :=
  match data with
  | .obj fields =>
      if isStrVal (etvOf fields) "book" then
        match bookEvent token_ids now fields with
        | some ev => [ev]
        | none => []
      else if isStrVal (jgetD fields "event_type" JVal.null) "price_change"
          && jhas fields "price_changes" then
        pcEvents token_ids now fields
      else []
  | _ => []

/-! ## Catalog pagination (`fetch_all_markets`, `_fetch_page`) -/

/-- Python `pat in s` substring test, on character lists. -/
def listContainsSub (pat : List Char) : List Char → Bool
  | [] => pat.isEmpty
  | c :: t => pat.isPrefixOf (c :: t) || listContainsSub pat t

/-- Python `pat in s` on strings. -/
def containsSub (s pat : String) : Bool :=
  listContainsSub pat.data s.data

/-- The substring whose presence in an error message makes
`fetch_all_markets` treat the error as successful end of pagination
(`client.py` line 104). -/
def magicMsg : String := "next item should be greater than or equal to 0"

/-- The outcome of one `_fetch_page` call, as observed by the
`fetch_all_markets` loop.  Instruments are opaque to the paginator and
are modelled as strings.
* `ok data next` — a dict response whose `data` field is the given
  list (possibly empty) and whose `next_cursor` field is `next`;
* `bad` — an absent / non-dict / empty response (all of which make the
  `not response or ... or not response.get("data")` guard fire);
* `err msg` — the call raised an exception with message `msg`. -/
inductive PageResp where
  | ok (data : List String) (next : Option String)
  | bad
  | err (msg : String)
deriving DecidableEq

/-- The `while True` loop of `fetch_all_markets` (`client.py` lines
77-114) run against a scripted endpoint: the k-th call is answered by
the k-th script entry, an exhausted script answering like an absent
response.  Returns the function result together with the trace of
cursors passed to the successive `_fetch_page` calls.  The result type
allows an error alternative so that claims about surfaced errors can
be stated; the source catches every exception inside the loop and
returns normally, so the error alternative is never produced. -/
def fetchLoopScript : List PageResp → Option String → List String →
    Except String (List String) × List (Option String)
  | [], cur, acc => (.ok acc, [cur])
  | .ok data next :: rest, cur, acc =>
      if data = [] then (.ok acc, [cur])
      else
        ((fetchLoopScript rest next (acc ++ data)).1,
          cur :: (fetchLoopScript rest next (acc ++ data)).2)
  | .bad :: _, cur, acc => (.ok acc, [cur])
  | .err msg :: _, cur, acc =>
      -- both arms break out of the loop and fall through to
      -- `return all_markets`; they differ only in logging
      if containsSub msg magicMsg then (.ok acc, [cur])
      else (.ok acc, [cur])

/-- `fetch_all_markets` against a scripted endpoint: first call with no
cursor, empty accumulator. -/
def fetch_all_markets (script : List PageResp) :
    Except String (List String) × List (Option String) :=
  fetchLoopScript script none []

/-- The same loop run against a cursor-keyed endpoint (the REST
endpoint is stateless: each call is determined by the cursor it
carries).  Fuel-indexed because the source loop need not terminate;
`none` means the given fuel was exhausted with the loop still
running. -/
def fetchAllCursor (endpoint : Option String → PageResp) :
    Nat → Option String → List String → Option (List String)
  | 0, _, _ => none
  | n + 1, cur, acc =>
      match endpoint cur with
      | .ok data next =>
          if data = [] then some acc
          else fetchAllCursor endpoint n next (acc ++ data)
      | .bad => some acc
      | .err msg =>
          if containsSub msg magicMsg then some acc else some acc

/-- A cursor-keyed endpoint holding exactly the two pages of the
spec's concrete pagination scenario: no cursor yields
`{data:[A,B], nextCursor:"x"}`, cursor `"x"` yields
`{data:[C], nextCursor:null}`. -/
def c3endpoint : Option String → PageResp
  | none => .ok ["A", "B"] (some "x")
  | some c => if c = "x" then .ok ["C"] none else .bad

/-- The same two pages as a per-call script, followed by the absent
response the third call observes. -/
def c3script : List PageResp :=
  [.ok ["A", "B"] (some "x"), .ok ["C"] none, .bad]

/-- Script for the non-magic-error scenario: one good page, then an
error whose message lacks the magic substring. -/
def c2script : List PageResp :=
  [.ok ["A"] (some "x"), .err "boom"]

/-! ## Streaming reconnect loop (`run_websocket`, `on_open`) -/

/-- The subscribe message `{"assets_ids": token_ids, "type": "market"}`
sent by `on_open` (`client.py` lines 514-518). -/
def subscribe_message (token_ids : List String) : JVal :=
  .obj [("assets_ids", .arr (token_ids.map .str)), ("type", .str "market")]

/-- The backoff update `reconnect_delay = min(reconnect_delay * 2, 60.0)`
(`client.py` line 563). -/
def backoffNext (d : ℚ) : ℚ := min (d * 2) 60

/-- Observable actions of the `run_websocket` loop. -/
inductive TraceItem where
  | subscribe (msg : JVal)
  | sleep (d : ℚ)

/-- The `run_websocket` loop of `stream_order_books` (`client.py` lines
533-574), including the `_streaming_active` flag it shares with the
callbacks.  The worker starts with the flag true (set by
`stream_order_books` line 405, modelled by the `active` argument) and
with no stop request and no duration bound.  Each entry of `script` is
one connection attempt that ends in a transport close or failure; the
entry records whether the handshake completed, i.e. whether `on_open`
fired and sent the subscribe message before the close.  In both cases
the websocket library runs its teardown path, so `on_close`
(`client.py` lines 504-507) fires and executes
`self._streaming_active = False` before `run_forever` returns.  Back
in the loop, `if self._streaming_active:` (line 560) therefore takes
the `else: break` arm: the backoff sleep, the delay doubling and the
reconnection are unreachable after a transport-initiated close.  (Only
an exception escaping `run_forever` without teardown would leave the
flag set; a dropped or refused connection — the scripted case — goes
through `on_close`.) -/
def run_websocket_loop : List Bool → List String → Bool → ℚ → List TraceItem
  | _, _, false, _ => []
  | [], _, _, _ => []
  | opened :: rest, tids, true, d =>
      -- run_forever: on_open (when the handshake completes) sends the
      -- subscribe message; the close then fires on_close, which clears
      -- the flag before run_forever returns:
      let active' := false
      (if opened then [TraceItem.subscribe (subscribe_message tids)] else []) ++
        -- `if self._streaming_active:` — cleared, so `else: break`
        (if active' then
          TraceItem.sleep d :: run_websocket_loop rest tids active' (backoffNext d)
        else [])

/-- The subscribe messages of a trace, in order. -/
def subsOf : List TraceItem → List JVal
  | [] => []
  | .subscribe m :: r => m :: subsOf r
  | .sleep _ :: r => subsOf r

/-- The backoff sleeps of a trace, in order. -/
def sleepsOf : List TraceItem → List ℚ
  | [] => []
  | .sleep d :: r => d :: sleepsOf r
  | .subscribe _ :: r => sleepsOf r

/-- `j` applications of the backoff update to a starting delay. -/
def delayIter : Nat → ℚ → ℚ
  | 0, d => d
  | n + 1, d => delayIter n (backoffNext d)

/-! ## Facade guards (`stream_order_books`, lines 396-408) -/

/-- The synchronous failures `stream_order_books` can raise before
starting a session: `RuntimeError("Client not initialized")`,
`RuntimeError("Streaming already active...")`,
`ValueError("At least one token_id is required")`. -/
inductive StartError where
  | notInitialized
  | alreadyStreaming
  | invalidArgument
deriving DecidableEq

/-- The facade state touched by `stream_order_books`:
`_streaming_active`, `_ws_token_id`, and the background session's
token list (standing for the spawned thread and stored callback). -/
structure StreamState where
  streaming_active : Bool
  ws_token_id : Option String
  session : Option (List String)
deriving DecidableEq

/-- The guard sequence and state update of `stream_order_books`
(`client.py` lines 396-408 and 405-407): client-initialized check,
already-streaming check, empty-token-list check, in that order; each
raise happens before any mutation, so the state is returned
untouched alongside the error. -/
def stream_order_books_start (initialized : Bool) (st : StreamState)
    (token_ids : List String) : Option StartError × StreamState :=
  if !initialized then (some .notInitialized, st)
  else if st.streaming_active then (some .alreadyStreaming, st)
  else if token_ids = [] then (some .invalidArgument, st)
  else
    (none,
      { streaming_active := true
        ws_token_id := token_ids.head?
        session := some token_ids })

/-! ## Concrete messages used by the normalizer claims -/

/-- The raw message of the spec's concrete normalization scenario. -/
def c5msg : JVal :=
  .obj [("eventType", .str "book"), ("asset_id", .str "T1"),
    ("timestamp", .str "1700000000000"),
    ("buys", .arr [.obj [("price", .str "0.48"), ("size", .str "30")]]),
    ("sells", .arr [])]

/-- A snapshot message whose single level has an unparsable price. -/
def c4msg : JVal :=
  .obj [("eventType", .str "book"), ("asset_id", .str "T1"),
    ("timestamp", .str "1700000000000"),
    ("buys", .arr [.obj [("price", .str "abc"), ("size", .str "30")]]),
    ("sells", .arr [])]

/-- A price-change message with one subscribed and one unsubscribed
entry, used to witness the filtering claim. -/
def c6msg : JVal :=
  .obj [("event_type", .str "price_change"), ("timestamp", .str "1000"),
    ("price_changes", .arr
      [.obj [("asset_id", .str "T1"), ("price", .str "0.5")],
       .obj [("asset_id", .str "T2"), ("price", .str "0.6")]]),
    ("market", .str "M")]

/-! ## Theorems: catalog pagination (claims C1, C2, C3, C10) -/

/-- After any number of non-empty pages followed by a raised error, the
loop result is a normal return of everything accumulated so far (the
`except` handler breaks out of the loop on either arm and falls through
to `return all_markets`). -/
theorem fetchLoop_err_fst (msg : String) (rest : List PageResp) :
    ∀ (pages : List (List String × Option String)) (cur : Option String)
      (acc : List String),
      (∀ p ∈ pages, p.1 ≠ []) →
      (fetchLoopScript
          (pages.map (fun p => PageResp.ok p.1 p.2) ++ PageResp.err msg :: rest)
          cur acc).1
        = Except.ok (acc ++ (pages.map Prod.fst).flatten) := by
  intro pages
  induction pages with
  | nil =>
      intro cur acc _
      simp only [List.map_nil, List.nil_append, fetchLoopScript,
        List.map_nil, List.flatten_nil, List.append_nil]
      split <;> rfl
  | cons p ps ih =>
      intro cur acc h
      obtain ⟨d, nx⟩ := p
      have hd : d ≠ [] := h (d, nx) (List.mem_cons_self _ _)
      simp only [List.map_cons, List.cons_append, fetchLoopScript, if_neg hd,
        List.append_eq]
      rw [ih nx (acc ++ d) (fun p hp => h p (List.mem_cons_of_mem _ hp))]
      simp [List.append_assoc]

/-- The number of `_fetch_page` calls made in the same scenario: one
per accumulated page plus the call that raised; nothing after the
error. -/
theorem fetchLoop_err_len (msg : String) (rest : List PageResp) :
    ∀ (pages : List (List String × Option String)) (cur : Option String)
      (acc : List String),
      (∀ p ∈ pages, p.1 ≠ []) →
      (fetchLoopScript
          (pages.map (fun p => PageResp.ok p.1 p.2) ++ PageResp.err msg :: rest)
          cur acc).2.length = pages.length + 1 := by
  intro pages
  induction pages with
  | nil =>
      intro cur acc _
      simp only [List.map_nil, List.nil_append, fetchLoopScript]
      split <;> rfl
  | cons p ps ih =>
      intro cur acc h
      obtain ⟨d, nx⟩ := p
      have hd : d ≠ [] := h (d, nx) (List.mem_cons_self _ _)
      simp only [List.map_cons, List.cons_append, fetchLoopScript, if_neg hd,
        List.length_cons, List.append_eq]
      rw [ih nx (acc ++ d) (fun p hp => h p (List.mem_cons_of_mem _ hp))]

/-- C1: if the N-th page-fetch call raises an error whose message
contains the substring "next item should be greater than or equal to
0", `fetch_all_markets` terminates successfully, without raising, and
returns exactly the instruments accumulated from calls 1..N-1 in
order. -/
theorem c1_magic_error_returns_accumulated
    (pages : List (List String × Option String)) (msg : String)
    (rest : List PageResp)
    (hne : ∀ p ∈ pages, p.1 ≠ [])
    (hmsg : containsSub msg magicMsg = true) :
    (fetch_all_markets
        (pages.map (fun p => PageResp.ok p.1 p.2) ++ PageResp.err msg :: rest)).1
      = Except.ok (pages.map Prod.fst).flatten := by
  unfold fetch_all_markets
  rw [fetchLoop_err_fst msg rest pages none [] hne]
  simp

/-- Witness for C1: two non-empty pages, then the magic error. -/
theorem c1_witness :
    (∀ p ∈ [(["A"], some "c"), (["B"], (none : Option String))], p.1 ≠ ([] : List String)) ∧
    containsSub magicMsg magicMsg = true ∧
    (fetch_all_markets
        [PageResp.ok ["A"] (some "c"), PageResp.ok ["B"] none,
         PageResp.err magicMsg]).1 = Except.ok ["A", "B"] :=
  ⟨by decide, by decide,
    c1_magic_error_returns_accumulated
      [(["A"], some "c"), (["B"], none)] magicMsg [] (by decide) (by decide)⟩

/-- C2 counterexample: one good page, then an error without the magic
substring.  The claim says a `NetworkError` is surfaced and the partial
list is discarded; the code returns normally with the partial list. -/
theorem c2_counterexample :
    (fetch_all_markets c2script).1 = Except.ok ["A"] ∧
    ∀ e : String, (fetch_all_markets c2script).1 ≠ Except.error e := by
  refine ⟨rfl, fun e h => ?_⟩
  rw [(rfl : (fetch_all_markets c2script).1 = Except.ok ["A"])] at h
  exact Except.noConfusion h

/-- C2 amended: an error without the magic substring also stops the
fetch immediately, but `fetch_all_markets` returns normally with the
accumulated partial list; no error is surfaced and the partial list is
kept, not discarded. -/
theorem c2_amended_other_error_keeps_accumulated
    (pages : List (List String × Option String)) (msg : String)
    (rest : List PageResp)
    (hne : ∀ p ∈ pages, p.1 ≠ [])
    (hmsg : containsSub msg magicMsg = false) :
    (fetch_all_markets
        (pages.map (fun p => PageResp.ok p.1 p.2) ++ PageResp.err msg :: rest)).1
      = Except.ok (pages.map Prod.fst).flatten ∧
    ∀ e : String,
      (fetch_all_markets
          (pages.map (fun p => PageResp.ok p.1 p.2) ++ PageResp.err msg :: rest)).1
        ≠ Except.error e := by
  have h1 := fetchLoop_err_fst msg rest pages none [] hne
  unfold fetch_all_markets
  rw [h1]
  simp

/-- Witness for the amended C2. -/
theorem c2_amended_witness :
    (∀ p ∈ [(["A"], some "x")], p.1 ≠ ([] : List String)) ∧
    containsSub "boom" magicMsg = false ∧
    (fetch_all_markets [PageResp.ok ["A"] (some "x"), PageResp.err "boom"]).1
      = Except.ok ["A"] :=
  ⟨by decide, by decide,
    (c2_amended_other_error_keeps_accumulated [(["A"], some "x")] "boom" []
      (by decide) (by decide)).1⟩

/-- Helper for the C3 counterexample: against the stateless cursor-keyed
endpoint holding exactly the two scenario pages, the loop cycles
between the no-cursor state and the `"x"`-cursor state forever (the
source never inspects `next_cursor` for null; after the second page it
calls `_fetch_page(None)` again and re-receives the first page). -/
theorem c3_endpoint_loops (n : Nat) :
    (∀ acc, fetchAllCursor c3endpoint n none acc = none) ∧
    (∀ acc, fetchAllCursor c3endpoint n (some "x") acc = none) := by
  induction n with
  | zero => exact ⟨fun _ => rfl, fun _ => rfl⟩
  | succ n ih =>
      refine ⟨fun acc => ?_, fun acc => ?_⟩
      · show fetchAllCursor c3endpoint (n + 1) none acc = none
        simp [fetchAllCursor, c3endpoint]
        exact ih.2 _
      · show fetchAllCursor c3endpoint (n + 1) (some "x") acc = none
        simp [fetchAllCursor, c3endpoint]
        exact ih.1 _

/-- C3 counterexample: with the catalog endpoint responding with exactly
the two pages `{data:[A,B], nextCursor:"x"}` (no cursor) and
`{data:[C], nextCursor:null}` (cursor "x"), `fetch_all_markets` never
terminates — for no amount of fuel does the loop finish — so it does
not return `[A,B,C]`, and it keeps fetching after the page whose
`nextCursor` is null. -/
theorem c3_counterexample :
    ¬ ∃ (n : Nat) (res : List String),
        fetchAllCursor c3endpoint n none [] = some res := by
  rintro ⟨n, res, h⟩
  rw [(c3_endpoint_loops n).1 []] at h
  exact Option.noConfusion h

/-- C3 amended: with the two scenario pages served per call and an
absent response to the third call, `fetch_all_markets` returns exactly
`[A,B,C]`; it does perform a third page fetch — made with no cursor,
since the second page's `next_cursor` was null — and stops only because
that third response has no data, not because `nextCursor` was null. -/
theorem c3_amended_three_fetches :
    fetch_all_markets c3script
      = (Except.ok ["A", "B", "C"], [none, some "x", none]) := by
  rfl

/-- C10: a page-fetch call raising an error whose message lacks the
magic substring never propagates an exception: the error is caught, the
pagination stops immediately (the raising call is the last one made),
and the instruments accumulated from the earlier successful pages are
returned. -/
theorem c10_no_propagation_stops_immediately
    (pages : List (List String × Option String)) (msg : String)
    (rest : List PageResp)
    (hne : ∀ p ∈ pages, p.1 ≠ [])
    (hmsg : containsSub msg magicMsg = false) :
    (fetch_all_markets
        (pages.map (fun p => PageResp.ok p.1 p.2) ++ PageResp.err msg :: rest)).1
      = Except.ok (pages.map Prod.fst).flatten ∧
    (fetch_all_markets
        (pages.map (fun p => PageResp.ok p.1 p.2) ++ PageResp.err msg :: rest)).2.length
      = pages.length + 1 := by
  unfold fetch_all_markets
  rw [fetchLoop_err_fst msg rest pages none [] hne,
    fetchLoop_err_len msg rest pages none [] hne]
  simp

/-- Witness for C10. -/
theorem c10_witness :
    (∀ p ∈ [(["A"], some "x"), (["B"], (none : Option String))], p.1 ≠ ([] : List String)) ∧
    containsSub "connection reset" magicMsg = false ∧
    (fetch_all_markets
        [PageResp.ok ["A"] (some "x"), PageResp.ok ["B"] none,
         PageResp.err "connection reset"]).1 = Except.ok ["A", "B"] ∧
    (fetch_all_markets
        [PageResp.ok ["A"] (some "x"), PageResp.ok ["B"] none,
         PageResp.err "connection reset"]).2.length = 3 := by
  have h := c10_no_propagation_stops_immediately
    [(["A"], some "x"), (["B"], none)] "connection reset" [] (by decide) (by decide)
  exact ⟨by decide, by decide, h.1, h.2⟩

/-! ## Theorems: reconnect loop (claims C7, C8) -/

/-- One backoff update moves `min (2^i) 60` to `min (2^(i+1)) 60`. -/
theorem backoffNext_min_pow (i : Nat) :
    backoffNext (min ((2 : ℚ) ^ i) 60) = min ((2 : ℚ) ^ (i + 1)) 60 := by
  unfold backoffNext
  rcases le_total ((2 : ℚ) ^ i) 60 with h | h
  · rw [min_eq_left h, pow_succ]
  · have h2 : (60 : ℚ) ≤ 2 ^ (i + 1) :=
      le_trans h (pow_le_pow_right₀ (by norm_num) (Nat.le_succ i))
    rw [min_eq_right h, show (60 : ℚ) * 2 = 120 by norm_num,
      min_eq_right (by norm_num : (60 : ℚ) ≤ 120), min_eq_right h2]

/-- Closed form of the iterated backoff update. -/
theorem delayIter_min_pow :
    ∀ (j i : Nat), delayIter j (min ((2 : ℚ) ^ i) 60) = min ((2 : ℚ) ^ (i + j)) 60 := by
  intro j
  induction j with
  | zero => intro i; simp [delayIter]
  | succ j ih =>
      intro i
      show delayIter j (backoffNext (min ((2 : ℚ) ^ i) 60)) = _
      rw [backoffNext_min_pow, ih (i + 1),
        show i + 1 + j = i + (j + 1) by omega]

/-- Iterating the backoff update from the initial delay 1. -/
theorem delayIter_one (j : Nat) : delayIter j 1 = min ((2 : ℚ) ^ j) 60 := by
  have h0 : (1 : ℚ) = min ((2 : ℚ) ^ 0) 60 := by norm_num
  rw [h0, delayIter_min_pow j 0, Nat.zero_add]

/-- C7: the program never waits any backoff delay.  `on_close` clears
`_streaming_active` on every transport close, so after `run_forever`
returns the `if self._streaming_active:` check fails and the loop
breaks: (1) for every session, script of failed connections and
starting delay, the trace contains no sleep at all; (2) concretely,
a session on ["T1"] whose first three connections all drop performs
one connect and then exits, sleeping nothing — instead of waiting
1, 2, 4 as the claim states; (3) the delay-update expression of the
source would produce exactly the claimed min(2^(k-1), 60) sequence,
had the sleep been reachable. -/
theorem c7_bug_backoff_never_happens :
    (∀ (tids : List String) (script : List Bool) (d : ℚ),
        sleepsOf (run_websocket_loop script tids true d) = []) ∧
    run_websocket_loop [true, true, true] ["T1"] true 1
      = [TraceItem.subscribe (subscribe_message ["T1"])] ∧
    (∀ k : Nat, delayIter k 1 = min ((2 : ℚ) ^ k) 60) := by
  refine ⟨?_, rfl, delayIter_one⟩
  intro tids script d
  cases script with
  | nil => rfl
  | cons opened rest => cases opened <;> rfl

/-- C8: the program never re-subscribes.  The subscribe messages a
session actually sends are: one on the initial connect when the
handshake completes — and that one does carry the original token set —
and none afterwards, because after any transport close the worker
breaks out of the loop (flag cleared by `on_close`); the "next
subscribe message after a drop" the claim speaks of is never sent. -/
theorem c8_bug_no_resubscribe :
    (∀ (tids : List String) (script : List Bool) (d : ℚ),
        subsOf (run_websocket_loop script tids true d)
          = if script.head? = some true then [subscribe_message tids] else []) ∧
    subsOf (run_websocket_loop [true, true] ["T1"] true 1)
      = [subscribe_message ["T1"]] := by
  constructor
  · intro tids script d
    cases script with
    | nil => rfl
    | cons opened rest => cases opened <;> rfl
  · rfl

/-! ## Theorems: facade guards (claim C9) -/

/-- C9 counterexample: when a session is active AND the token list is
empty, `stream_order_books` raises the already-streaming error, not the
invalid-argument error — the claim's "invalid-argument whenever the
list is empty" does not hold in that state. -/
theorem c9_counterexample :
    stream_order_books_start true ⟨true, some "T0", some ["T0"]⟩ []
      = (some StartError.alreadyStreaming, ⟨true, some "T0", some ["T0"]⟩) ∧
    StartError.alreadyStreaming ≠ StartError.invalidArgument :=
  ⟨rfl, by decide⟩

/-- C9 amended: with an initialized client, `stream_order_books` fails
synchronously with the already-streaming error whenever a session is
active, and with the invalid-argument error whenever the token list is
empty and no session is active (the already-streaming check runs
first); in both failure cases the facade state is returned untouched —
no session is started and the prior session is undisturbed. -/
theorem c9_amended_start_guards (st : StreamState) (tids : List String) :
    (st.streaming_active = true →
      stream_order_books_start true st tids = (some .alreadyStreaming, st)) ∧
    (st.streaming_active = false → tids = [] →
      stream_order_books_start true st tids = (some .invalidArgument, st)) := by
  constructor
  · intro h; simp [stream_order_books_start, h]
  · intro h h2; simp [stream_order_books_start, h, h2]

/-- Witness for the amended C9. -/
theorem c9_witness :
    (StreamState.mk true (some "T0") (some ["T0"])).streaming_active = true ∧
    stream_order_books_start true ⟨true, some "T0", some ["T0"]⟩ ["T1"]
      = (some StartError.alreadyStreaming, ⟨true, some "T0", some ["T0"]⟩) ∧
    (StreamState.mk false none none).streaming_active = false ∧
    stream_order_books_start true ⟨false, none, none⟩ []
      = (some StartError.invalidArgument, ⟨false, none, none⟩) :=
  ⟨rfl, (c9_amended_start_guards ⟨true, some "T0", some ["T0"]⟩ ["T1"]).1 rfl,
    rfl, (c9_amended_start_guards ⟨false, none, none⟩ []).2 rfl rfl⟩

/-! ## Theorems: event normalizer (claims C4, C5, C6) -/

/-- C5: normalizing the raw message
`{"eventType":"book","asset_id":"T1","timestamp":"1700000000000",
"buys":[{"price":"0.48","size":"30"}],"sells":[]}` with subscribed set
{"T1"} produces exactly one book-snapshot event for token T1 with one
bid (0.48, 30), no asks, and the timestamp 1700000000 taken from the
epoch-milliseconds string (the wall clock, 0 or 42 here, is unused). -/
theorem c5_concrete_snapshot :
    on_message ["T1"] 0 c5msg
      = [MarketEvent.book "T1" (JVal.str "") 1700000000
          [LevelEntry.pair (12 / 25) 30] [] (JVal.str "")] ∧
    on_message ["T1"] 42 c5msg
      = [MarketEvent.book "T1" (JVal.str "") 1700000000
          [LevelEntry.pair (12 / 25) 30] [] (JVal.str "")] := by
  constructor <;>
  · simp [c5msg, on_message, etvOf, jgetD, jget, jhas, truthy, isStrVal,
      bookEvent, bookTimestamp, parseIntStr, natOfDigits, levels, pyIter,
      levelsList, levelEntry, pyFloat, parseFloatStr, parseFloatCore,
      parseExpPart]
    norm_num

/-- C4 counterexample: the same message with the unparsable level price
"abc" yields no event at all — `float("abc")` raises, the handler's
`except` clause swallows the error and the message is dropped, rather
than the field being treated as 0. -/
theorem c4_counterexample : on_message ["T1"] 0 c4msg = [] := by
  simp [c4msg, on_message, etvOf, jgetD, jget, jhas, truthy, isStrVal,
    bookEvent, bookTimestamp, parseIntStr, natOfDigits, levels, pyIter,
    levelsList, levelEntry, pyFloat, parseFloatStr, parseFloatCore,
    parseExpPart]

/-- If any entry of a level list fails to convert, the whole
comprehension raises and yields nothing. -/
theorem levelsList_none_of_mem :
    ∀ (l : List JVal) (b : JVal), b ∈ l → levelEntry b = none →
      levelsList l = none := by
  intro l
  induction l with
  | nil => intro b h _; simp at h
  | cons a t ih =>
      intro b h hb
      rcases List.mem_cons.mp h with rfl | h'
      · simp [levelsList, hb]
      · rcases ha : levelEntry a with _ | e
        · simp [levelsList, ha]
        · simp [levelsList, ha, ih b h' hb]

/-- C4 amended: in snapshot levels, an absent price or size field is
parsed as 0 (conjuncts 1-2), but an unparsable price makes the whole
level list — and hence the whole message — yield nothing rather than
a 0-valued level (conjuncts 3-4); in a price-change entry, absent
best_bid/best_ask/price/size scalars are emitted as null and the event
is still delivered, never dropped (conjunct 5). -/
theorem c4_amended_numeric_semantics :
    (∀ (f : List (String × JVal)) (q : ℚ), jget f "price" = none →
        pyFloat (jgetD f "size" (JVal.num 0)) = some q →
        levelEntry (JVal.obj f) = some (LevelEntry.pair 0 q)) ∧
    (∀ (f : List (String × JVal)) (q : ℚ), jget f "size" = none →
        pyFloat (jgetD f "price" (JVal.num 0)) = some q →
        levelEntry (JVal.obj f) = some (LevelEntry.pair q 0)) ∧
    (∀ (pre : List JVal) (f : List (String × JVal)) (post : List JVal),
        pyFloat (jgetD f "price" (JVal.num 0)) = none →
        levels (JVal.arr (pre ++ JVal.obj f :: post)) = none) ∧
    (∀ (ids : List String) (now : ℚ) (fields : List (String × JVal)),
        isStrVal (etvOf fields) "book" = true →
        bookEvent ids now fields = none →
        on_message ids now (JVal.obj fields) = []) ∧
    (∀ (ids : List String) (ts : ℚ) (mkt : JVal)
        (ef : List (String × JVal)) (s : String) (rest : List JVal),
        jgetD ef "asset_id" (JVal.str "") = JVal.str s → s ∈ ids →
        jget ef "best_bid" = none → jget ef "best_ask" = none →
        jget ef "price" = none → jget ef "size" = none →
        pcLoop ids ts mkt (JVal.obj ef :: rest)
          = MarketEvent.priceChange s ts JVal.null JVal.null JVal.null
              JVal.null (jgetD ef "side" JVal.null) mkt
              :: pcLoop ids ts mkt rest) := by
  refine ⟨?_, ?_, ?_, ?_, ?_⟩
  · intro f q h1 h2
    simp [levelEntry, jgetD, h1, pyFloat] at h2 ⊢
    simp [jgetD, h1, pyFloat, h2]
  · intro f q h1 h2
    simp only [levelEntry]
    rw [h2]
    simp [jgetD, h1, pyFloat]
  · intro pre f post h1
    have hb : levelEntry (JVal.obj f) = none := by simp [levelEntry, h1]
    have : levelsList (pre ++ JVal.obj f :: post) = none :=
      levelsList_none_of_mem _ _ (by simp) hb
    simp [levels, pyIter, this]
  · intro ids now fields h1 h2
    simp [on_message, h1, h2]
  · intro ids ts mkt ef s rest h1 h2 h3 h4 h5 h6
    simp only [pcLoop, h1]
    rw [if_pos h2]
    simp [pcEntryEvent, jgetD, h3, h4, h5, h6]

/-- Witness for the amended C4: a level with only a size parses to
(0, 30), and a subscribed price-change entry with only an asset id
still produces an event, with null scalars. -/
theorem c4_amended_witness :
    (jget [("size", JVal.str "30")] "price" = none ∧
      pyFloat (jgetD [("size", JVal.str "30")] "size" (JVal.num 0)) = some 30 ∧
      levelEntry (JVal.obj [("size", JVal.str "30")])
        = some (LevelEntry.pair 0 30)) ∧
    (jgetD [("asset_id", JVal.str "T1")] "asset_id" (JVal.str "")
        = JVal.str "T1" ∧
      pcLoop ["T1"] 5 JVal.null [JVal.obj [("asset_id", JVal.str "T1")]]
        = [MarketEvent.priceChange "T1" 5 JVal.null JVal.null JVal.null
            JVal.null JVal.null JVal.null]) := by
  have h2 : pyFloat (jgetD [("size", JVal.str "30")] "size" (JVal.num 0))
      = some 30 := by
    simp [jgetD, jget, pyFloat, parseFloatStr, parseFloatCore, natOfDigits]
  have h1 : jget [("size", JVal.str "30")] "price" = none := by
    simp [jget]
  refine ⟨⟨h1, h2, c4_amended_numeric_semantics.1 _ 30 h1 h2⟩, ⟨by simp [jgetD, jget], ?_⟩⟩
  have := c4_amended_numeric_semantics.2.2.2.2 ["T1"] 5 JVal.null
    [("asset_id", JVal.str "T1")] "T1" [] (by simp [jgetD, jget])
    (by simp) (by simp [jget]) (by simp [jget]) (by simp [jget]) (by simp [jget])
  simpa [pcLoop, jgetD, jget] using this

/-- A book event is only ever built for a subscribed asset id. -/
theorem bookEvent_token_mem (ids : List String) (now : ℚ)
    (fields : List (String × JVal)) (ev : MarketEvent)
    (h : bookEvent ids now fields = some ev) : tokenIdOf ev ∈ ids := by
  unfold bookEvent at h
  cases hj : jgetD fields "asset_id" (JVal.str "") with
  | null => rw [hj] at h; simp at h
  | bool b => rw [hj] at h; simp at h
  | num q => rw [hj] at h; simp at h
  | arr xs => rw [hj] at h; simp at h
  | obj fs => rw [hj] at h; simp at h
  | str s =>
  rw [hj] at h
  dsimp only at h
  by_cases hs : s ∈ ids
  · rw [if_pos hs] at h
    rcases ht : bookTimestamp now (jgetD fields "timestamp" JVal.null)
      with _ | ts <;> rw [ht] at h <;> dsimp only at h
    · exact absurd h (by simp)
    rcases hb : levels (jgetD fields "buys" (JVal.arr []))
      with _ | bids <;> rw [hb] at h <;> dsimp only at h
    · exact absurd h (by simp)
    rcases ha : levels (jgetD fields "sells" (JVal.arr []))
      with _ | asks <;> rw [ha] at h <;> dsimp only at h
    · exact absurd h (by simp)
    injection h with h
    subst h
    simpa [tokenIdOf] using hs
  · rw [if_neg hs] at h
    exact absurd h (by simp)

/-- Every event emitted by the price-change loop is for a subscribed
asset id. -/
theorem pcLoop_token_mem (ids : List String) (ts : ℚ) (mkt : JVal) :
    ∀ (es : List JVal) (ev : MarketEvent),
      ev ∈ pcLoop ids ts mkt es → tokenIdOf ev ∈ ids := by
  intro es
  induction es with
  | nil => intro ev h; simp [pcLoop] at h
  | cons e rest ih =>
      intro ev h
      cases e with
      | obj ef =>
          simp only [pcLoop] at h
          rcases hj : jgetD ef "asset_id" (JVal.str "")
            with _ | b | q | s | xs | fs <;> rw [hj] at h <;> dsimp only at h
          case str =>
            by_cases hs : s ∈ ids
            · rw [if_pos hs] at h
              rcases List.mem_cons.mp h with rfl | h'
              · simpa [pcEntryEvent, tokenIdOf] using hs
              · exact ih ev h'
            · rw [if_neg hs] at h
              exact ih ev h
          all_goals exact ih ev h
      | null => simp [pcLoop] at h
      | bool b => simp [pcLoop] at h
      | num q => simp [pcLoop] at h
      | str s => simp [pcLoop] at h
      | arr xs => simp [pcLoop] at h

/-- Every event emitted by the price-change branch is for a subscribed
asset id. -/
theorem pcEvents_token_mem (ids : List String) (now : ℚ)
    (fields : List (String × JVal)) (ev : MarketEvent)
    (h : ev ∈ pcEvents ids now fields) : tokenIdOf ev ∈ ids := by
  unfold pcEvents at h
  rcases hn : pcTimestampMs now (jget fields "timestamp") with _ | n <;>
    rw [hn] at h <;> dsimp only at h
  · exact absurd h (by simp)
  rcases hi : pyIter (jgetD fields "price_changes" (JVal.arr []))
    with _ | entries <;> rw [hi] at h <;> dsimp only at h
  · exact absurd h (by simp)
  exact pcLoop_token_mem ids _ _ entries ev h

/-- The price-change loop over dict-only entries is exactly a filterMap
keeping the subscribed entries: one event per subscribed entry, in
order, other entries skipped. -/
theorem pcLoop_eq_filterMap (ids : List String) (ts : ℚ) (mkt : JVal) :
    ∀ (entries : List JVal),
      (∀ e ∈ entries, ∃ f, e = JVal.obj f) →
      pcLoop ids ts mkt entries
        = entries.filterMap (pcEntryFilter ids ts mkt) := by
  intro entries
  induction entries with
  | nil => intro _; simp [pcLoop]
  | cons e rest ih =>
      intro h
      obtain ⟨f, rfl⟩ := h _ (List.mem_cons_self _ _)
      have hrest := ih fun x hx => h x (List.mem_cons_of_mem _ hx)
      simp only [pcLoop, List.filterMap_cons, pcEntryFilter]
      rcases hj : jgetD f "asset_id" (JVal.str "")
        with _ | b | q | s | xs | fs <;> dsimp only <;> try exact hrest
      by_cases hs : s ∈ ids
      · rw [if_pos hs, if_pos hs, hrest]
      · rw [if_neg hs, if_neg hs, hrest]

/-- C6: no event is ever delivered for an unsubscribed instrument:
(1) every event produced by the handler, for any message, carries a
subscribed token id; (2) a well-formed price-change message is expanded
into exactly one event per entry whose asset id is subscribed, in
order, all other entries skipped; (3) a book message whose asset id is
not subscribed yields nothing. -/
theorem c6_unsubscribed_filtering :
    (∀ (ids : List String) (now : ℚ) (data : JVal) (ev : MarketEvent),
        ev ∈ on_message ids now data → tokenIdOf ev ∈ ids) ∧
    (∀ (ids : List String) (now : ℚ) (tsv mktv : JVal)
        (entries : List JVal) (n : Int),
        pcTimestampMs now (some tsv) = some n →
        (∀ e ∈ entries, ∃ f, e = JVal.obj f) →
        on_message ids now (JVal.obj
            [("event_type", JVal.str "price_change"), ("timestamp", tsv),
             ("price_changes", JVal.arr entries), ("market", mktv)])
          = entries.filterMap (pcEntryFilter ids ((n : ℚ) / 1000) mktv)) ∧
    (∀ (ids : List String) (now : ℚ) (fields : List (String × JVal)),
        isStrVal (etvOf fields) "book" = true →
        (∀ s, jgetD fields "asset_id" (JVal.str "") = JVal.str s → s ∉ ids) →
        on_message ids now (JVal.obj fields) = []) := by
  refine ⟨?_, ?_, ?_⟩
  · intro ids now data ev h
    cases data with
    | null => simp [on_message] at h
    | bool b => simp [on_message] at h
    | num q => simp [on_message] at h
    | str s => simp [on_message] at h
    | arr xs => simp [on_message] at h
    | obj fields =>
      simp only [on_message] at h
      split at h
      · rcases hb : bookEvent ids now fields with _ | ev2 <;>
          rw [hb] at h <;> simp at h
        subst h
        exact bookEvent_token_mem ids now fields _ hb
      · split at h
        · exact pcEvents_token_mem ids now fields ev h
        · simp at h
  · intro ids now tsv mktv entries n hn hent
    have hfalse : isStrVal (etvOf
        [("event_type", JVal.str "price_change"), ("timestamp", tsv),
         ("price_changes", JVal.arr entries), ("market", mktv)]) "book"
        = false := by
      simp [etvOf, jgetD, jget, truthy, isStrVal]
    simp only [on_message, hfalse, Bool.false_eq_true, if_false]
    rw [if_pos]
    · unfold pcEvents
      have hjt : jget [("event_type", JVal.str "price_change"), ("timestamp", tsv),
          ("price_changes", JVal.arr entries), ("market", mktv)] "timestamp"
          = some tsv := by simp [jget]
      rw [hjt, hn]
      have hjp : jgetD [("event_type", JVal.str "price_change"), ("timestamp", tsv),
          ("price_changes", JVal.arr entries), ("market", mktv)] "price_changes"
          (JVal.arr []) = JVal.arr entries := by simp [jgetD, jget]
      rw [hjp]
      have hjm : jgetD [("event_type", JVal.str "price_change"), ("timestamp", tsv),
          ("price_changes", JVal.arr entries), ("market", mktv)] "market"
          JVal.null = mktv := by simp [jgetD, jget]
      rw [show pyIter (JVal.arr entries) = some entries from rfl, hjm]
      exact pcLoop_eq_filterMap ids _ mktv entries hent
    · simp [jgetD, jget, jhas, isStrVal]
  · intro ids now fields h1 h2
    have hb : bookEvent ids now fields = none := by
      unfold bookEvent
      rcases hj : jgetD fields "asset_id" (JVal.str "")
        with _ | b | q | s | xs | fs <;> dsimp only <;> try rfl
      rw [if_neg (h2 s hj)]
    simp [on_message, h1, hb]

/-- Witness for C6: a two-entry price-change message with only "T1"
subscribed delivers exactly the one event for T1, and its token id is
subscribed. -/
theorem c6_witness :
    (MarketEvent.priceChange "T1" 1 JVal.null JVal.null (JVal.str "0.5")
        JVal.null JVal.null (JVal.str "M")) ∈ on_message ["T1"] 0 c6msg ∧
    tokenIdOf (MarketEvent.priceChange "T1" 1 JVal.null JVal.null
        (JVal.str "0.5") JVal.null JVal.null (JVal.str "M")) ∈ ["T1"] := by
  have hm : on_message ["T1"] 0 c6msg
      = [MarketEvent.priceChange "T1" 1 JVal.null JVal.null (JVal.str "0.5")
          JVal.null JVal.null (JVal.str "M")] := by
    simp [c6msg, on_message, etvOf, jgetD, jget, jhas, truthy, isStrVal,
      pcEvents, pcTimestampMs, pyInt, parseIntStr, natOfDigits, pyIter,
      pcLoop, pcEntryEvent]
  have hmem : (MarketEvent.priceChange "T1" 1 JVal.null JVal.null
      (JVal.str "0.5") JVal.null JVal.null (JVal.str "M"))
      ∈ on_message ["T1"] 0 c6msg := by
    rw [hm]; exact List.mem_cons_self _ _
  exact ⟨hmem, c6_unsubscribed_filtering.1 ["T1"] 0 c6msg _ hmem⟩
